import Mathlib

/-!
Verification of the SlipStream libcloud compute driver
(`src/slipstream/libcloud/compute_driver.py`) against its natural-language
specification.  Python strings are embedded as `List Char` where character
level parsing matters, and as Lean `String` where only whole-string
comparison matters.  Fallible Python code is embedded with `Except PyErr`.
-/

namespace SlipStream

/-- Python exception kinds relevant to the driver. -/
inductive PyErr where
  | nameError
  | keyError
  | valueError
  | libcloudError
  | upstream (code : Nat)
  deriving DecidableEq, Repr

/-- The provider-neutral node states from `libcloud.compute.types.NodeState`. -/
inductive NodeState where
  | pending
  | rebooting
  | running
  | stopped
  | terminated
  | error
  | paused
  | unknown
  deriving DecidableEq, Repr

/-- `SlipStreamNodeDriver.NODE_STATE_MAP`, transcribed entry by entry from the
source (lines 155-179), association order preserved. -/
def NODE_STATE_MAP : List (String × NodeState) :=
  [("initializing", NodeState.pending),
   ("provisioning", NodeState.rebooting),
   ("executing", NodeState.running),
   ("sendingReports", NodeState.running),
   ("ready", NodeState.running),
   ("finalizing", NodeState.running),
   ("done", NodeState.terminated),
   ("aborted", NodeState.error),
   ("cancelled", NodeState.terminated),
   ("rebooting", NodeState.rebooting),
   ("poweroff", NodeState.stopped),
   ("running", NodeState.running),
   ("stopped", NodeState.stopped),
   ("deleted", NodeState.terminated),
   ("terminated", NodeState.terminated),
   ("error", NodeState.error),
   ("stopping", NodeState.running),
   ("failed", NodeState.error),
   ("pending", NodeState.pending),
   ("paused", NodeState.paused),
   ("suspended", NodeState.paused)]

/-- Python `str.lower()` restricted to ASCII, which covers every status string
the driver sees. -/
def pyLower (s : String) : String := String.mk (s.data.map Char.toLower)

/-- `SlipStreamNodeDriver._state_to_node_state` (lines 660-662):
`NODE_STATE_MAP.get(state.lower(), NodeState.UNKNOWN)`. -/
def state_to_node_state (state : String) : NodeState :=
  (NODE_STATE_MAP.lookup (pyLower state)).getD NodeState.unknown

/-- `create_node`'s `ex_tags` argument may be a bare string or a list
(lines 399-401). -/
inductive TagsArg where
  | str (s : String)
  | list (l : List String)
  deriving DecidableEq, Repr

/-- Lines 399-401 of `create_node`: normalize `tags` to a list, then prepend
`name` when it is truthy (`if name:`). -/
def normalizeTags (tags : TagsArg) (name : Option String) : List String :=
  let tags' := match tags with
    | TagsArg.str s => [s]
    | TagsArg.list l => l
  match name with
  | some n => if n ≠ "" then n :: tags' else tags'
  | none => tags'

/-- `SlipStreamNodeDriver.destroy_node` (lines 414-431): the upstream
`terminate` call either returns a boolean or raises; the driver catches every
exception, emits a warning (whose format call succeeds: `node` is the bound
parameter) and returns `False`. -/
def destroy_node (upstream : Except PyErr Bool) : Except PyErr Bool :=
  match upstream with
  | Except.ok b => Except.ok b
  | Except.error _ => Except.ok false

/-- `SlipStreamNodeDriver.delete_image` (lines 460-477): the upstream
`delete_element` call either returns a boolean or raises.  The except block
formats its warning with `node.name`, but no variable `node` is in scope in
`delete_image` (the parameter is `node_image`), so evaluating the format
arguments raises `NameError` before the warning is emitted and before
`return False` is reached. -/
def delete_image (upstream : Except PyErr Bool) : Except PyErr Bool :=
  match upstream with
  | Except.ok b => Except.ok b
  | Except.error _ => Except.error PyErr.nameError

/-- Result of the polling loop of `ex_wait_node_in_state`. -/
inductive WaitResult where
  | reached (state : String) (polls : Nat)
  | timedOut (polls : Nat)
  | outOfFuel
  deriving DecidableEq, Repr

/-- The polling loop of `SlipStreamNodeDriver.ex_wait_node_in_state`
(lines 618-630) over a scripted upstream: `script n` is the status returned
by the `(n+1)`-th call to `get_deployment_parameter`.  Time is modelled
discretely: it starts at `0` when the deadline `timeout` is computed, and
each `time.sleep(wait_period)` advances it by `wait_period`; `fuel` bounds
the number of iterations so the function is total (the real loop can spin
forever when `wait_period = 0` and the target state never appears).
`t` is the current time and `polls` the number of polls made so far. -/
def waitLoop (script : Nat → String) (states : List String)
    (wait_period timeout : Nat) : Nat → Nat → Nat → WaitResult
  | _, _, 0 => WaitResult.outOfFuel
  | t, polls, fuel + 1 =>
    if t < timeout then
      let state := script polls
      if state ∈ states then
        WaitResult.reached state (polls + 1)
      else
        waitLoop script states wait_period timeout (t + wait_period) (polls + 1) fuel
    else
      WaitResult.timedOut polls

/-- `ex_wait_node_in_state` with the deadline computed once at entry
(`deadline = time.time() + timeout`, line 619), started at time `0` with no
polls performed yet. -/
def ex_wait_node_in_state (script : Nat → String) (states : List String)
    (wait_period timeout fuel : Nat) : WaitResult :=
  waitLoop script states wait_period timeout 0 0 fuel

/-- The scripted upstream of the specification: two reads of `"A"` followed by
`"B"` forever. -/
def scriptAAB : Nat → String := fun n => if n < 2 then "A" else "B"

/-! ### `create_node`: service-offer injection (lines 381-397)

The application branch of the `if size:` block iterates over the
application's nodes with loop variable `app_node`, but its body reads
`element_node.name` — the loop variable of the *earlier* cloud-assignment
loop (lines 384-385).  In Python, after `for element_node in xs: ...` the
variable keeps the last element of `xs`; if that loop never ran the name is
unbound and reading it raises `NameError`.  The embedding passes that stale
binding explicitly. -/

/-- Association-list lookup used for Python dict reads. -/
def dictGet {α : Type} (m : List (String × α)) (k : String) : Option α :=
  m.lookup k

/-- Python dict assignment `m[k] = v`: replace in place if the key exists,
else append (insertion order preserved). -/
def dictSet {α : Type} (m : List (String × α)) (k : String) (v : α) :
    List (String × α) :=
  if (m.lookup k).isSome then
    m.map (fun p => if p.1 = k then (k, v) else p)
  else
    m ++ [(k, v)]

/-- Parameters of an application deployment: node name → parameter map. -/
abbrev AppParams := List (String × List (String × String))

/-- One iteration of the application branch of the `if size:` block
(lines 391-394), given the stale `element_node` binding:
`node_params = parameters.setdefault(element_node.name, {})` followed by
`if 'service-offer' not in node_params: node_params['service-offer'] = size.id`. -/
def sizeInjectStep (elementNode : Option String) (sizeId : String)
    (params : AppParams) : Except PyErr AppParams :=
  match elementNode with
  | none => Except.error PyErr.nameError
  | some en =>
    let node_params := (dictGet params en).getD []
    if (dictGet node_params "service-offer").isSome then
      Except.ok (dictSet params en node_params)
    else
      Except.ok (dictSet params en (dictSet node_params "service-offer" sizeId))

/-- The application branch of the `if size:` block (lines 390-394): the loop
`for app_node in self.ss_api.get_application_nodes(path):` runs once per
application node, each iteration executing `sizeInjectStep` on the stale
`element_node` binding. -/
def sizeInjectApplication (elementNode : Option String) (appNodes : List String)
    (sizeId : String) (params : AppParams) : Except PyErr AppParams :=
  match appNodes with
  | [] => Except.ok params
  | _ :: rest => do
    let params' ← sizeInjectStep elementNode sizeId params
    sizeInjectApplication elementNode rest sizeId params'

/-- The component branch of the `if size:` block (lines 395-397):
`if 'service-offer' not in parameters: parameters['service-offer'] = size.id`. -/
def sizeInjectComponent (sizeId : String) (params : List (String × String)) :
    List (String × String) :=
  if (dictGet params "service-offer").isSome then params
  else dictSet params "service-offer" sizeId

/-- The binding `element_node` holds when the `if size:` block is reached
(lines 381-387): it is the last application node iterated by the
cloud-assignment loop, which only runs when `cloud` is unset, a `location`
was given and the element is an application; otherwise the name is unbound
(`none`). -/
def elementNodeBinding (cloudGiven locationGiven : Bool)
    (elementType : String) (appNodes : List String) : Option String :=
  if !cloudGiven && locationGiven && elementType == "application" then
    appNodes.getLast?
  else
    none

/-- The whole `if size:` block for an application image: compute the stale
`element_node` binding, then run the injection loop. -/
def createNodeSizeApplication (cloudGiven locationGiven : Bool)
    (appNodes : List String) (sizeId : String) (params : AppParams) :
    Except PyErr AppParams :=
  sizeInjectApplication
    (elementNodeBinding cloudGiven locationGiven "application" appNodes)
    appNodes sizeId params

/-! ### Strings as character lists

The key-pair code and the image-id construction manipulate strings character
by character, so they are embedded over `List Char`. -/

/-- A Python string, as its list of characters. -/
abbrev PyStr := List Char

/-- Membership of the strip set of `_parse_ssh_public_key`:
`.strip('\t\r\n ')` (line 752). -/
def isStripChar (c : Char) : Bool :=
  c = '\t' || c = '\r' || c = '\n' || c = ' '

/-- Python `s.strip('\t\r\n ')`: drop leading and trailing characters of the
strip set. -/
def pyStrip (s : PyStr) : PyStr :=
  ((s.dropWhile isStripChar).reverse.dropWhile isStripChar).reverse

/-- Python `s.split(c)` (unlimited): `''.split(c) = ['']`,
`'a,b'.split(',') = ['a','b']`. -/
def pySplitChar (c : Char) : PyStr → List PyStr
  | [] => [[]]
  | x :: xs =>
    if x = c then
      [] :: pySplitChar c xs
    else
      match pySplitChar c xs with
      | [] => [[x]]
      | h :: t => (x :: h) :: t

/-- Python `s.split(c, n)`: split on `c` at most `n` times, the unsplit
remainder forming the last field. -/
def pySplitCharLimit (c : Char) : PyStr → Nat → List PyStr
  | s, 0 => [s]
  | [], _ + 1 => [[]]
  | x :: xs, n + 1 =>
    if x = c then
      [] :: pySplitCharLimit c xs n
    else
      match pySplitCharLimit c xs (n + 1) with
      | [] => [[x]]
      | h :: t => (x :: h) :: t

/-- An OpenSSH public key as `(type, content, name)` — the triple produced by
`_parse_ssh_public_key`. -/
structure SshKey where
  keyType : PyStr
  content : PyStr
  name : PyStr
  deriving DecidableEq, Repr

/-- `SlipStreamNodeDriver._parse_ssh_public_key` (lines 750-759):
strip `'\t\r\n '`, split on `' '` at most twice; fewer than two fields raises
(`IndexError` caught and re-raised as `ValueError`); the name defaults to the
empty string. -/
def parse_ssh_public_key (s : PyStr) : Except PyErr SshKey :=
  match pySplitCharLimit ' ' (pyStrip s) 2 with
  | [t, c] => Except.ok ⟨t, c, []⟩
  | [t, c, n] => Except.ok ⟨t, c, n⟩
  | _ => Except.error PyErr.valueError

/-- A libcloud `KeyPair` as built by `_ssh_public_key_to_key_pair`
(fingerprint always unset, `extra` holding the type and content). -/
structure KeyPair where
  name : PyStr
  public_key : PyStr
  public_key_type : PyStr
  public_key_content : PyStr
  deriving DecidableEq, Repr

/-- `SlipStreamNodeDriver._ssh_public_key_to_key_pair` (lines 737-748):
parse, choose the explicit `name` when truthy (non-empty) else the parsed
comment, and re-serialize the key as `'{} {} {}'`. -/
def ssh_public_key_to_key_pair (s : PyStr) (name : Option PyStr) :
    Except PyErr KeyPair := do
  let k ← parse_ssh_public_key s
  let public_key_name := match name with
    | some nm => if nm ≠ [] then nm else k.name
    | none => k.name
  Except.ok ⟨public_key_name,
             k.keyType ++ ' ' :: k.content ++ ' ' :: public_key_name,
             k.keyType, k.content⟩

/-- `SlipStreamNodeDriver.list_key_pairs` (lines 491-499): the account state
is the upstream list of public-key strings (`get_user().ssh_public_keys`);
falsy (empty) entries are filtered out (`if kp`), the rest converted. -/
def list_key_pairs (keys : List PyStr) : Except PyErr (List KeyPair) :=
  (keys.filter (fun k => k ≠ [])).mapM (fun k => ssh_public_key_to_key_pair k none)

/-- Association-list lookup keyed by `PyStr`. -/
def kpGet {α : Type} (m : List (PyStr × α)) (k : PyStr) : Option α :=
  m.lookup k

/-- Python dict insertion keyed by `PyStr` (used to build the name-indexed
dict: value replaced in place on duplicate, else appended). -/
def kpSet {α : Type} (m : List (PyStr × α)) (k : PyStr) (v : α) :
    List (PyStr × α) :=
  if (m.lookup k).isSome then
    m.map (fun p => if p.1 = k then (k, v) else p)
  else
    m ++ [(k, v)]

/-- `SlipStreamNodeDriver._list_key_pairs_by_names` (lines 733-735):
`dict([(kp.name, kp) for kp in self.list_key_pairs() if kp and kp.name])` —
key pairs with a falsy (empty) name are excluded from the dict. -/
def list_key_pairs_by_names (keys : List PyStr) :
    Except PyErr (List (PyStr × KeyPair)) := do
  let kps ← list_key_pairs keys
  Except.ok ((kps.filter (fun kp => kp.name ≠ [])).foldl
    (fun m kp => kpSet m kp.name kp) [])

/-- `SlipStreamNodeDriver.get_key_pair` (lines 501-511):
`self._list_key_pairs_by_names().get(name)` — `dict.get` returns `None` on a
miss rather than raising. -/
def get_key_pair (keys : List PyStr) (name : PyStr) :
    Except PyErr (Option KeyPair) := do
  let m ← list_key_pairs_by_names keys
  Except.ok (kpGet m name)

/-- Python `'\n'.join`. -/
def pyJoinNl (lines : List PyStr) : PyStr :=
  match lines with
  | [] => []
  | l :: rest => l ++ (rest.map (fun r => '\n' :: r)).flatten

/-- `SlipStreamNodeDriver.delete_key_pair` (lines 572-584): build the
name-indexed dict, `del key_pairs[key_pair.name]` (raising `KeyError` when
the name is absent — before any upstream call), then push the newline-joined
blob of the remaining public keys via `update_user`.  `Except.ok blob` is the
single upstream `update_user` call with its pushed blob; an error means no
update call was issued. -/
def delete_key_pair (keys : List PyStr) (name : PyStr) : Except PyErr PyStr := do
  let m ← list_key_pairs_by_names keys
  match kpGet m name with
  | none => Except.error PyErr.keyError
  | some _ =>
    let remaining := m.filter (fun p => p.1 ≠ name)
    Except.ok (pyJoinNl (remaining.map (fun p => p.2.public_key)))

/-- The serialization direction of the key-pair blob round trip: a key pair
is rendered as the single line `'{} {} {}'.format(type, content, name)`
(line 741), and registration joins the lines with `'\n'` (lines 582, 765). -/
def serializeSshKey (k : SshKey) : PyStr :=
  k.keyType ++ ' ' :: k.content ++ ' ' :: k.name

/-- Modelled from the spec: the account stores all public keys as one
newline-delimited blob, and the upstream user profile presents it back as the
list of its lines (`get_user().ssh_public_keys`); the blob-to-lines split is
performed by the wrapped API client, which is not part of this repository. -/
def blobToKeys (blob : PyStr) : List PyStr :=
  pySplitChar '\n' blob

/-- A well-formed key pair for the round-trip property: non-empty type and
content containing no whitespace of the strip set, and a name (possibly
empty) free of newlines that neither starts nor ends with a strip
character. -/
def wellFormedKey (k : SshKey) : Prop :=
  k.keyType ≠ [] ∧ (∀ c ∈ k.keyType, isStripChar c = false) ∧
  k.content ≠ [] ∧ (∀ c ∈ k.content, isStripChar c = false) ∧
  ('\n' ∉ k.name) ∧
  k.name.head?.all (fun c => !isStripChar c) = true ∧
  k.name.getLast?.all (fun c => !isStripChar c) = true

/-- Whether a key is well formed is decidable, so concrete witnesses can be
checked by evaluation. -/
instance wellFormedKeyDecidable (k : SshKey) : Decidable (wellFormedKey k) := by
  unfold wellFormedKey
  infer_instance

/-- `SlipStreamNodeDriver._element_to_image` (lines 702-706) builds the image
id as `'{}/{}'.format(element.path, element.version)`. -/
def makeImageId (path version : PyStr) : PyStr :=
  path ++ '/' :: version

/-- Modelled from the spec: "Image id round-trip: `make_image_id(path,
version)` followed by split must recover `(path, version)`" — the inverse
split is not present in this repository (consumers use the id opaquely), so
it is modelled as splitting at the join character `'/'`. -/
def splitImageId (s : PyStr) : PyStr × PyStr :=
  (s.takeWhile (fun c => c ≠ '/'), (s.dropWhile (fun c => c ≠ '/')).drop 1)

/-! ## Theorems -/

/-- Claim C8: for every tag string and every name argument, `create_node`
called with the bare string as `ex_tags` and called with the single-element
list produce identical final tag lists, the name (when given) prepended in
both cases. -/
theorem claim_C8_tag_normalization (t : String) (name : Option String) :
    normalizeTags (TagsArg.str t) name = normalizeTags (TagsArg.list [t]) name :=
  rfl

/-- Claim C5, failing input: the claim asserts that every status string
recognized in the driver's state table maps to its tabulated state, but the
table entry `'sendingReports' → RUNNING` is unreachable: `_state_to_node_state`
lowercases its input before the lookup, and no lowercased string equals the
mixed-case key, so the status `"sendingReports"` maps to `unknown` instead of
its tabulated `running`.  Purity and totality, and the `unknown` fallback on
an unrecognized string, do hold, as the last two conjuncts illustrate. -/
theorem claim_C5_sendingReports_unreachable :
    NODE_STATE_MAP.lookup "sendingReports" = some NodeState.running ∧
    state_to_node_state "sendingReports" = NodeState.unknown ∧
    state_to_node_state "ready" = NodeState.running ∧
    state_to_node_state "no-such-status" = NodeState.unknown :=
  ⟨rfl, rfl, rfl, rfl⟩

/-- Claim C2, failing input: `destroy_node` does return `False` for every
upstream exception, but `delete_image` does not — its warning formatter reads
the undefined name `node`, so every upstream exception turns into a raised
`NameError` instead of the documented `return False`. -/
theorem claim_C2_delete_image_raises :
    (∀ e : PyErr, destroy_node (Except.error e) = Except.ok false) ∧
    delete_image (Except.error (PyErr.upstream 500)) = Except.error PyErr.nameError ∧
    delete_image (Except.error (PyErr.upstream 500)) ≠ Except.ok false :=
  ⟨fun _ => rfl, rfl, by simp [delete_image]⟩

/-- Claim C1, failing input: an application with subnodes `n1`, `n2`, a
location, no explicit cloud, a size and empty parameters.  The claim asserts
that every subnode's parameter map receives `service-offer`, but the loop
body reads the stale `element_node` binding (last subnode of the earlier
cloud-assignment loop) instead of the loop variable `app_node`: only `n2`
receives the parameter and `n1` gets none.  When the cloud loop never ran
(cloud given) the same block raises `NameError`.  The component branch does
follow the claim, as the last two conjuncts show. -/
theorem claim_C1_stale_loop_variable :
    createNodeSizeApplication false true ["n1", "n2"] "offer-1" [] =
      Except.ok [("n2", [("service-offer", "offer-1")])] ∧
    dictGet [("n2", [("service-offer", "offer-1")])] "n1" = none ∧
    createNodeSizeApplication true true ["n1", "n2"] "offer-1" [] =
      Except.error PyErr.nameError ∧
    sizeInjectComponent "offer-1" [] = [("service-offer", "offer-1")] ∧
    sizeInjectComponent "offer-1" [("service-offer", "mine")] =
      [("service-offer", "mine")] :=
  ⟨rfl, rfl, rfl, rfl, rfl⟩

/-- `takeWhile` keeps exactly the prefix before the first element failing the
predicate, and `dropWhile` the rest, when every element of `a` satisfies it
and `x` does not. -/
theorem takeWhile_dropWhile_append {α : Type} (p : α → Bool) (a : List α)
    (x : α) (s : List α) (ha : ∀ c ∈ a, p c = true) (hx : p x = false) :
    ((a ++ x :: s).takeWhile p = a) ∧ ((a ++ x :: s).dropWhile p = x :: s) := by
  induction a with
  | nil => simp [List.takeWhile_cons, List.dropWhile_cons, hx]
  | cons y ys ih =>
    have hy := ha y (List.mem_cons_self y ys)
    have ih' := ih (fun c hc => ha c (List.mem_cons_of_mem y hc))
    simp [List.takeWhile_cons, List.dropWhile_cons, hy, ih'.1, ih'.2]

/-- Claim C6: building an image id as `'{path}/{version}'` and splitting at
the join character recovers the original pair, for any path free of `'/'`. -/
theorem claim_C6_image_id_round_trip (path version : PyStr) (h : '/' ∉ path) :
    splitImageId (makeImageId path version) = (path, version) := by
  have ha : ∀ c ∈ path, (decide (c ≠ '/')) = true := by
    intro c hc
    simp only [decide_eq_true_eq]
    exact fun e => h (e ▸ hc)
  have hd := takeWhile_dropWhile_append (fun c => decide (c ≠ '/')) path '/'
    version ha (by simp)
  simp only [splitImageId, makeImageId]
  rw [hd.1, hd.2]
  simp

/-- Claim C6 witness: the round trip at `path = "module"`, `version = "42"`. -/
theorem claim_C6_witness :
    '/' ∉ "module".data ∧
    splitImageId (makeImageId "module".data "42".data) = ("module".data, "42".data) :=
  ⟨by decide, claim_C6_image_id_round_trip "module".data "42".data (by decide)⟩

/-- If the scripted upstream never returns an accepted state, the loop never
returns `reached`. -/
theorem waitLoop_no_reach (script : Nat → String) (states : List String)
    (w timeout : Nat) (hs : ∀ n, script n ∉ states) :
    ∀ (fuel t polls : Nat) (s : String) (k : Nat),
      waitLoop script states w timeout t polls fuel ≠ WaitResult.reached s k := by
  intro fuel
  induction fuel with
  | zero => intro t polls s k; simp [waitLoop]
  | succ f ih =>
    intro t polls s k
    simp only [waitLoop]
    split
    · have hmem : (script polls ∈ states) = False := by
        simp [hs polls]
      simp only [hmem, if_false]
      exact ih (t + w) (polls + 1) s k
    · simp

/-- Whenever the loop reports a timeout with `p` total polls, the time at
exit — `p - polls` sleeps of `w` after the entry time `t` — has passed the
deadline, and at least the polls already performed are counted. -/
theorem waitLoop_timeout_late (script : Nat → String) (states : List String)
    (w timeout : Nat) :
    ∀ (fuel t polls p : Nat),
      waitLoop script states w timeout t polls fuel = WaitResult.timedOut p →
      polls ≤ p ∧ timeout ≤ t + (p - polls) * w := by
  intro fuel
  induction fuel with
  | zero => intro t polls p hres; simp [waitLoop] at hres
  | succ f ih =>
    intro t polls p hres
    simp only [waitLoop] at hres
    by_cases ht : t < timeout
    · simp only [ht, if_true] at hres
      by_cases hmem : script polls ∈ states
      · simp [hmem] at hres
      · simp only [hmem, if_false] at hres
        obtain ⟨hple, htime⟩ := ih (t + w) (polls + 1) p hres
        refine ⟨by omega, ?_⟩
        have hsub : p - polls = (p - (polls + 1)) + 1 := by omega
        rw [hsub, Nat.succ_mul]
        linarith
    · simp only [ht, if_false, WaitResult.timedOut.injEq] at hres
      subst hres
      simp only [Nat.le_refl, Nat.sub_self, Nat.zero_mul, Nat.add_zero, true_and]
      omega

/-- Claim C3: with the scripted upstream `[A, A, B, ...]`, the accepted set
`{B}`, `wait_period = 0` and any positive timeout, `ex_wait_node_in_state`
polls exactly 3 times and returns `B`; and for any scripted upstream that
never returns an accepted state, the call never succeeds and reports a
timeout only once the deadline has elapsed (entry time `0` plus `p` sleeps of
`wait_period` each reaches `timeout`). -/
theorem claim_C3_wait_node_in_state (timeout fuel : Nat)
    (ht : 0 < timeout) (hf : 3 ≤ fuel) :
    ex_wait_node_in_state scriptAAB ["B"] 0 timeout fuel =
      WaitResult.reached "B" 3 ∧
    (∀ (script : Nat → String) (states : List String) (w f p : Nat),
      (∀ n, script n ∉ states) →
      (∀ (s : String) (k : Nat),
        ex_wait_node_in_state script states w timeout f ≠ WaitResult.reached s k) ∧
      (ex_wait_node_in_state script states w timeout f = WaitResult.timedOut p →
        timeout ≤ p * w)) := by
  constructor
  · obtain ⟨f, rfl⟩ : ∃ f, fuel = f + 3 := ⟨fuel - 3, by omega⟩
    show waitLoop scriptAAB ["B"] 0 timeout 0 0 (f + 3) = WaitResult.reached "B" 3
    have h0 : scriptAAB 0 = "A" := rfl
    have h1 : scriptAAB 1 = "A" := rfl
    have h2 : scriptAAB 2 = "B" := rfl
    simp [waitLoop, ht, h0, h1, h2]
  · intro script states w f p hs
    refine ⟨fun s k => waitLoop_no_reach script states w timeout hs f 0 0 s k, ?_⟩
    intro hres
    have := (waitLoop_timeout_late script states w timeout f 0 0 p hres).2
    simpa using this

/-- Claim C3 witness: the theorem instantiated at `timeout = 5`, `fuel = 3`. -/
theorem claim_C3_witness :
    0 < 5 ∧ 3 ≤ 3 ∧
    (ex_wait_node_in_state scriptAAB ["B"] 0 5 3 = WaitResult.reached "B" 3 ∧
    (∀ (script : Nat → String) (states : List String) (w f p : Nat),
      (∀ n, script n ∉ states) →
      (∀ (s : String) (k : Nat),
        ex_wait_node_in_state script states w 5 f ≠ WaitResult.reached s k) ∧
      (ex_wait_node_in_state script states w 5 f = WaitResult.timedOut p →
        5 ≤ p * w))) :=
  ⟨by decide, by decide, claim_C3_wait_node_in_state 5 3 (by decide) (by decide)⟩

/-- Binding an `Except.ok` just applies the continuation. -/
theorem exceptBindOk {ε α β : Type} (x : α) (f : α → Except ε β) :
    (Except.ok x >>= f : Except ε β) = f x := rfl

/-- Replacing the value stored under key `k` does not change lookups of a
different key. -/
theorem lookup_map_replace {α : Type} (m : List (PyStr × α)) (k : PyStr)
    (v : α) (name : PyStr) (h : k ≠ name) :
    (m.map (fun p => if p.1 = k then (k, v) else p)).lookup name =
      m.lookup name := by
  induction m with
  | nil => rfl
  | cons q m ih =>
    obtain ⟨qk, qv⟩ := q
    simp only [List.map_cons]
    by_cases hq : qk = k
    · subst hq
      have h1 : (if (qk, qv).1 = qk then (qk, v) else (qk, qv)) = (qk, v) := by simp
      rw [h1]
      have hne : (name == qk) = false := beq_eq_false_iff_ne.mpr (Ne.symm h)
      simp [List.lookup, hne, ih]
    · have h1 : (if (qk, qv).1 = k then (k, v) else (qk, qv)) = (qk, qv) := by
        simp [hq]
      rw [h1]
      cases hb : name == qk <;> simp [List.lookup, hb, ih]

/-- Appending an entry with a different key does not change lookups. -/
theorem lookup_append_single {α : Type} (m : List (PyStr × α)) (k : PyStr)
    (v : α) (name : PyStr) (h : k ≠ name) :
    (m ++ [(k, v)]).lookup name = m.lookup name := by
  induction m with
  | nil =>
    have hne : (name == k) = false := beq_eq_false_iff_ne.mpr (Ne.symm h)
    simp [List.lookup, hne]
  | cons q m ih =>
    obtain ⟨qk, qv⟩ := q
    cases hb : name == qk <;> simp [List.lookup, hb, ih]

/-- `kpSet` with a key different from `name` preserves `kpGet name`. -/
theorem kpGet_kpSet_ne {α : Type} (m : List (PyStr × α)) (k : PyStr) (v : α)
    (name : PyStr) (h : k ≠ name) :
    kpGet (kpSet m k v) name = kpGet m name := by
  unfold kpGet kpSet
  split
  · exact lookup_map_replace m k v name h
  · exact lookup_append_single m k v name h

/-- Folding `kpSet` over key pairs whose names all differ from `name` leaves
`kpGet name` a miss. -/
theorem kpGet_fold_absent (name : PyStr) (pairs : List KeyPair) :
    ∀ (acc : List (PyStr × KeyPair)), kpGet acc name = none →
      (∀ kp ∈ pairs, kp.name ≠ name) →
      kpGet (pairs.foldl (fun m kp => kpSet m kp.name kp) acc) name = none := by
  induction pairs with
  | nil => intro acc hacc _; simpa using hacc
  | cons kp pairs ih =>
    intro acc hacc hall
    simp only [List.foldl_cons]
    refine ih (kpSet acc kp.name kp) ?_ (fun q hq => hall q (List.mem_cons_of_mem kp hq))
    rw [kpGet_kpSet_ne acc kp.name kp name (hall kp (List.mem_cons_self kp pairs))]
    exact hacc

/-- Every entry of `kpSet m k v` is either the inserted pair or an entry of
`m`. -/
theorem mem_kpSet {α : Type} (m : List (PyStr × α)) (k : PyStr) (v : α)
    (p : PyStr × α) (hp : p ∈ kpSet m k v) : p = (k, v) ∨ p ∈ m := by
  unfold kpSet at hp
  split at hp
  · obtain ⟨q, hq, hfq⟩ := List.mem_map.mp hp
    by_cases hq1 : q.1 = k
    · simp only [hq1, if_true] at hfq
      exact Or.inl hfq.symm
    · simp only [hq1, if_false] at hfq
      exact Or.inr (hfq ▸ hq)
  · rcases List.mem_append.mp hp with hm | hone
    · exact Or.inr hm
    · exact Or.inl (List.mem_singleton.mp hone)

/-- Keys of the fold of `kpSet` all come from the accumulator or the inserted
names. -/
theorem fold_keys_nonempty (pairs : List KeyPair) :
    ∀ (acc : List (PyStr × KeyPair)), (∀ p ∈ acc, p.1 ≠ []) →
      (∀ kp ∈ pairs, kp.name ≠ []) →
      ∀ p ∈ pairs.foldl (fun m kp => kpSet m kp.name kp) acc, p.1 ≠ [] := by
  induction pairs with
  | nil => intro acc hacc _ p hp; exact hacc p hp
  | cons kp pairs ih =>
    intro acc hacc hall p hp
    simp only [List.foldl_cons] at hp
    refine ih (kpSet acc kp.name kp) ?_
      (fun q hq => hall q (List.mem_cons_of_mem kp hq)) p hp
    intro q hq
    rcases mem_kpSet acc kp.name kp q hq with hq' | hq'
    · rw [hq']
      exact hall kp (List.mem_cons_self kp pairs)
    · exact hacc q hq'

/-- When every filtered key pair has a name different from `name`, the
name-indexed dict built by `_list_key_pairs_by_names` misses `name`. -/
theorem byNames_lookup_absent (keys : List PyStr) (kps : List KeyPair)
    (name : PyStr) (h1 : list_key_pairs keys = Except.ok kps)
    (h2 : ∀ kp ∈ kps.filter (fun kp => kp.name ≠ []), kp.name ≠ name) :
    ∃ m, list_key_pairs_by_names keys = Except.ok m ∧ kpGet m name = none := by
  refine ⟨(kps.filter (fun kp => kp.name ≠ [])).foldl
    (fun m kp => kpSet m kp.name kp) [], ?_, ?_⟩
  · simp [list_key_pairs_by_names, h1, exceptBindOk]
  · exact kpGet_fold_absent name _ [] rfl h2

/-- Claim C4: for every key-pair name absent from the account's current key
list, `delete_key_pair` fails with a `KeyError` (raised by
`del key_pairs[name]`) before any upstream `update_user` call — in this
embedding an `Except.ok blob` is the one `update_user` call, so an error
result means the upstream key list was left untouched. -/
theorem claim_C4_delete_absent_fails (keys : List PyStr) (kps : List KeyPair)
    (name : PyStr) (h1 : list_key_pairs keys = Except.ok kps)
    (h2 : ∀ kp ∈ kps, kp.name ≠ name) :
    delete_key_pair keys name = Except.error PyErr.keyError := by
  obtain ⟨m, hm, hget⟩ := byNames_lookup_absent keys kps name h1
    (fun kp hkp => h2 kp (List.mem_of_mem_filter hkp))
  simp [delete_key_pair, hm, hget, exceptBindOk]

/-- Claim C4 witness: an account with the single key `"ssh-rsa AAA k1"` and a
delete of the absent name `"k2"`. -/
theorem claim_C4_witness :
    list_key_pairs ["ssh-rsa AAA k1".data] =
      Except.ok [⟨"k1".data, "ssh-rsa AAA k1".data, "ssh-rsa".data, "AAA".data⟩] ∧
    (∀ kp ∈ [(⟨"k1".data, "ssh-rsa AAA k1".data, "ssh-rsa".data, "AAA".data⟩ : KeyPair)],
      kp.name ≠ "k2".data) ∧
    delete_key_pair ["ssh-rsa AAA k1".data] "k2".data = Except.error PyErr.keyError :=
  ⟨rfl, by decide,
   claim_C4_delete_absent_fails ["ssh-rsa AAA k1".data]
     [⟨"k1".data, "ssh-rsa AAA k1".data, "ssh-rsa".data, "AAA".data⟩]
     "k2".data rfl (by decide)⟩

/-- Claim C9: for every name not present in the account's key list,
`get_key_pair` returns `None` (an `Except.ok none`) rather than raising —
`dict.get` misses are silent, unlike `delete_key_pair`'s `del`. -/
theorem claim_C9_get_absent_none (keys : List PyStr) (kps : List KeyPair)
    (name : PyStr) (h1 : list_key_pairs keys = Except.ok kps)
    (h2 : ∀ kp ∈ kps, kp.name ≠ name) :
    get_key_pair keys name = Except.ok none := by
  obtain ⟨m, hm, hget⟩ := byNames_lookup_absent keys kps name h1
    (fun kp hkp => h2 kp (List.mem_of_mem_filter hkp))
  simp [get_key_pair, hm, hget, exceptBindOk]

/-- Claim C9 witness: the same single-key account, looking up the absent name
`"k2"`. -/
theorem claim_C9_witness :
    list_key_pairs ["ssh-rsa AAA k1".data] =
      Except.ok [⟨"k1".data, "ssh-rsa AAA k1".data, "ssh-rsa".data, "AAA".data⟩] ∧
    (∀ kp ∈ [(⟨"k1".data, "ssh-rsa AAA k1".data, "ssh-rsa".data, "AAA".data⟩ : KeyPair)],
      kp.name ≠ "k2".data) ∧
    get_key_pair ["ssh-rsa AAA k1".data] "k2".data = Except.ok none :=
  ⟨rfl, by decide,
   claim_C9_get_absent_none ["ssh-rsa AAA k1".data]
     [⟨"k1".data, "ssh-rsa AAA k1".data, "ssh-rsa".data, "AAA".data⟩]
     "k2".data rfl (by decide)⟩

/-- Claim C10: an entry with an empty comment/name is invisible to name-based
lookup: the name-indexed dict only holds entries with a non-empty name, so a
key pair returned by `list_key_pairs` with an empty name can neither be
retrieved (`get_key_pair` returns `None`) nor deleted (`delete_key_pair`
raises `KeyError`) by its name. -/
theorem claim_C10_unnamed_invisible (keys : List PyStr) (kps : List KeyPair)
    (kp : KeyPair) (h1 : list_key_pairs keys = Except.ok kps)
    (hkp : kp ∈ kps) (hname : kp.name = []) :
    (∃ m, list_key_pairs_by_names keys = Except.ok m ∧ ∀ p ∈ m, p.1 ≠ []) ∧
    get_key_pair keys kp.name = Except.ok none ∧
    delete_key_pair keys kp.name = Except.error PyErr.keyError := by
  have hfilter : ∀ q ∈ kps.filter (fun kp => kp.name ≠ []), q.name ≠ ([] : PyStr) := by
    intro q hq
    have := List.of_mem_filter hq
    simpa using this
  have habs := byNames_lookup_absent keys kps [] h1 hfilter
  obtain ⟨m, hm, hget⟩ := habs
  refine ⟨⟨m, hm, ?_⟩, ?_, ?_⟩
  · have hmdef : m = (kps.filter (fun kp => kp.name ≠ [])).foldl
        (fun m kp => kpSet m kp.name kp) [] := by
      have : list_key_pairs_by_names keys = Except.ok ((kps.filter
          (fun kp => kp.name ≠ [])).foldl (fun m kp => kpSet m kp.name kp) []) := by
        simp [list_key_pairs_by_names, h1, exceptBindOk]
      rw [this] at hm
      exact (Except.ok.injEq _ _ ▸ hm).symm
    rw [hmdef]
    exact fold_keys_nonempty _ [] (by simp) hfilter
  · rw [hname]
    simp [get_key_pair, hm, hget, exceptBindOk]
  · rw [hname]
    simp [delete_key_pair, hm, hget, exceptBindOk]

/-- Claim C10 witness: an account whose single key `"ssh-rsa AAA "` has no
comment; `list_key_pairs` returns it with an empty name, yet it cannot be
fetched or deleted by name. -/
theorem claim_C10_witness :
    list_key_pairs ["ssh-rsa AAA ".data] =
      Except.ok [⟨[], "ssh-rsa AAA ".data, "ssh-rsa".data, "AAA".data⟩] ∧
    (⟨[], "ssh-rsa AAA ".data, "ssh-rsa".data, "AAA".data⟩ : KeyPair) ∈
      [(⟨[], "ssh-rsa AAA ".data, "ssh-rsa".data, "AAA".data⟩ : KeyPair)] ∧
    ((∃ m, list_key_pairs_by_names ["ssh-rsa AAA ".data] = Except.ok m ∧
        ∀ p ∈ m, p.1 ≠ []) ∧
      get_key_pair ["ssh-rsa AAA ".data]
        (⟨[], "ssh-rsa AAA ".data, "ssh-rsa".data, "AAA".data⟩ : KeyPair).name =
        Except.ok none ∧
      delete_key_pair ["ssh-rsa AAA ".data]
        (⟨[], "ssh-rsa AAA ".data, "ssh-rsa".data, "AAA".data⟩ : KeyPair).name =
        Except.error PyErr.keyError) :=
  ⟨rfl, by decide,
   claim_C10_unnamed_invisible ["ssh-rsa AAA ".data]
     [⟨[], "ssh-rsa AAA ".data, "ssh-rsa".data, "AAA".data⟩]
     ⟨[], "ssh-rsa AAA ".data, "ssh-rsa".data, "AAA".data⟩ rfl
     (by decide) rfl⟩

/-- Splitting a string free of the separator yields the single chunk. -/
theorem pySplitChar_no_char (c : Char) (l : PyStr) (h : c ∉ l) :
    pySplitChar c l = [l] := by
  induction l with
  | nil => rfl
  | cons x xs ih =>
    have hx : ¬(x = c) := fun e => h (by rw [← e]; exact List.mem_cons_self x xs)
    have ih' := ih (fun hm => h (List.mem_cons_of_mem x hm))
    simp [pySplitChar, hx, ih']

/-- Splitting past a separator-free chunk peels it off. -/
theorem pySplitChar_chunk (c : Char) (l s : PyStr) (h : c ∉ l) :
    pySplitChar c (l ++ c :: s) = l :: pySplitChar c s := by
  induction l with
  | nil => simp [pySplitChar]
  | cons x xs ih =>
    have hx : ¬(x = c) := fun e => h (by rw [← e]; exact List.mem_cons_self x xs)
    have ih' := ih (fun hm => h (List.mem_cons_of_mem x hm))
    simp [pySplitChar, hx, ih']

/-- `'\n'.join` on at least two lines starts with the first line and a
newline. -/
theorem pyJoinNl_cons_cons (l r : PyStr) (rest : List PyStr) :
    pyJoinNl (l :: r :: rest) = l ++ '\n' :: pyJoinNl (r :: rest) := by
  simp [pyJoinNl]

/-- Re-splitting a newline-join of newline-free lines recovers the lines. -/
theorem blobToKeys_join (ls : List PyStr) (h : ∀ l ∈ ls, '\n' ∉ l)
    (hne : ls ≠ []) : blobToKeys (pyJoinNl ls) = ls := by
  induction ls with
  | nil => exact absurd rfl hne
  | cons l rest ih =>
    cases rest with
    | nil =>
      show pySplitChar '\n' (pyJoinNl [l]) = [l]
      have : pyJoinNl [l] = l := by simp [pyJoinNl]
      rw [this]
      exact pySplitChar_no_char '\n' l (h l (List.mem_cons_self l []))
    | cons r rest2 =>
      show pySplitChar '\n' (pyJoinNl (l :: r :: rest2)) = l :: r :: rest2
      rw [pyJoinNl_cons_cons,
        pySplitChar_chunk '\n' l (pyJoinNl (r :: rest2))
          (h l (List.mem_cons_self l (r :: rest2)))]
      have := ih (fun q hq => h q (List.mem_cons_of_mem l hq)) (by simp)
      rw [show blobToKeys (pyJoinNl (r :: rest2)) =
        pySplitChar '\n' (pyJoinNl (r :: rest2)) from rfl] at this
      rw [this]

/-- A limited split of a separator-free string yields the single chunk, for
any remaining budget. -/
theorem pySplitCharLimit_no_char (c : Char) (l : PyStr) (h : c ∉ l) :
    ∀ n, pySplitCharLimit c l n = [l] := by
  induction l with
  | nil => intro n; cases n <;> rfl
  | cons x xs ih =>
    intro n
    cases n with
    | zero => rfl
    | succ k =>
      have hx : ¬(x = c) := fun e => h (by rw [← e]; exact List.mem_cons_self x xs)
      have ih' := ih (fun hm => h (List.mem_cons_of_mem x hm)) (k + 1)
      simp [pySplitCharLimit, hx, ih']

/-- A limited split with remaining budget peels off a separator-free
chunk. -/
theorem pySplitCharLimit_chunk (c : Char) (l s : PyStr) (n : Nat) (h : c ∉ l) :
    pySplitCharLimit c (l ++ c :: s) (n + 1) = l :: pySplitCharLimit c s n := by
  induction l with
  | nil => simp [pySplitCharLimit]
  | cons x xs ih =>
    have hx : ¬(x = c) := fun e => h (by rw [← e]; exact List.mem_cons_self x xs)
    have ih' := ih (fun hm => h (List.mem_cons_of_mem x hm))
    simp [pySplitCharLimit, hx, ih']

/-- Stripping a string whose first and last characters are outside the strip
set changes nothing. -/
theorem pyStrip_eq_self (s : PyStr)
    (hh : s.head?.all (fun c => !isStripChar c) = true)
    (hl : s.getLast?.all (fun c => !isStripChar c) = true) :
    pyStrip s = s := by
  cases s with
  | nil => rfl
  | cons x xs =>
    have hx : isStripChar x = false := by
      simpa using hh
    have h1 : (x :: xs).dropWhile isStripChar = x :: xs := by
      simp [List.dropWhile_cons, hx]
    unfold pyStrip
    rw [h1]
    cases hrev : (x :: xs).reverse with
    | nil => exact absurd hrev (by simp)
    | cons y ys =>
      have hy : isStripChar y = false := by
        have : (x :: xs).getLast? = some y := by
          rw [List.getLast?_eq_head?_reverse, hrev]
          rfl
        rw [this] at hl
        simpa using hl
      have h3 : List.dropWhile isStripChar (y :: ys) = y :: ys := by
        simp [List.dropWhile_cons, hy]
      rw [h3, ← hrev, List.reverse_reverse]

/-- Stripping a string that is clean except for one trailing blank removes
exactly that blank. -/
theorem pyStrip_trailing_space (a : PyStr)
    (hh : a.head?.all (fun c => !isStripChar c) = true)
    (hl : a.getLast?.all (fun c => !isStripChar c) = true)
    (hne : a ≠ []) :
    pyStrip (a ++ [' ']) = a := by
  cases a with
  | nil => exact absurd rfl hne
  | cons x xs =>
    have hx : isStripChar x = false := by
      simpa using hh
    have h1 : ((x :: xs) ++ [' ']).dropWhile isStripChar = (x :: xs) ++ [' '] := by
      simp [List.dropWhile_cons, hx]
    unfold pyStrip
    rw [h1]
    have h2 : ((x :: xs) ++ [' ']).reverse = ' ' :: (x :: xs).reverse := by
      simp
    rw [h2]
    cases hrev : (x :: xs).reverse with
    | nil => exact absurd hrev (by simp)
    | cons y ys =>
      have hy : isStripChar y = false := by
        have : (x :: xs).getLast? = some y := by
          rw [List.getLast?_eq_head?_reverse, hrev]
          rfl
        rw [this] at hl
        simpa using hl
      have hsp : isStripChar ' ' = true := rfl
      rw [List.dropWhile_cons]
      simp only [hsp, if_true]
      have h3 : List.dropWhile isStripChar (y :: ys) = y :: ys := by
        simp [List.dropWhile_cons, hy]
      rw [h3, ← hrev, List.reverse_reverse]

/-- The serialized line of a well-formed key contains no newline. -/
theorem serialize_no_newline (k : SshKey) (h : wellFormedKey k) :
    '\n' ∉ serializeSshKey k := by
  obtain ⟨t, c, n⟩ := k
  obtain ⟨ht1, ht2, hc1, hc2, hn1, hn2, hn3⟩ := h
  intro hm
  simp only [serializeSshKey, List.mem_append, List.mem_cons] at hm
  rcases hm with (hm | hm | hm) | hm | hm
  · have := ht2 '\n' hm
    simp [isStripChar] at this
  · exact absurd hm (by decide)
  · have := hc2 '\n' hm
    simp [isStripChar] at this
  · exact absurd hm (by decide)
  · exact hn1 hm

/-- The serialized line of a key is never the empty (falsy) string. -/
theorem serialize_ne_nil (k : SshKey) : serializeSshKey k ≠ [] := by
  simp [serializeSshKey]

/-- Parsing the serialization of a well-formed key recovers exactly the
original `(type, content, name)` triple. -/
theorem parse_serialize (k : SshKey) (h : wellFormedKey k) :
    parse_ssh_public_key (serializeSshKey k) = Except.ok k := by
  obtain ⟨t, c, n⟩ := k
  obtain ⟨ht1, ht2, hc1, hc2, hn1, hn2, hn3⟩ := h
  dsimp only at ht1 ht2 hc1 hc2 hn1 hn2 hn3
  have hts : ' ' ∉ t := by
    intro hm
    have hbad := ht2 ' ' hm
    simp [isStripChar] at hbad
  have hcs : ' ' ∉ c := by
    intro hm
    have hbad := hc2 ' ' hm
    simp [isStripChar] at hbad
  obtain ⟨th, tt, htx⟩ := List.exists_cons_of_ne_nil ht1
  have hth : isStripChar th = false := ht2 th (by rw [htx]; exact List.mem_cons_self th tt)
  have hcrev : c.reverse ≠ [] := by
    simpa [List.reverse_eq_nil_iff] using hc1
  obtain ⟨cl, crest, hcr⟩ := List.exists_cons_of_ne_nil hcrev
  have hclmem : cl ∈ c := by
    rw [← List.mem_reverse, hcr]
    exact List.mem_cons_self cl crest
  have hcl : isStripChar cl = false := hc2 cl hclmem
  have hclast : c.getLast? = some cl := by
    rw [List.getLast?_eq_head?_reverse, hcr]
    rfl
  by_cases hn : n = []
  · subst hn
    have hser : serializeSshKey ⟨t, c, []⟩ = (t ++ ' ' :: c) ++ [' '] := by
      simp [serializeSshKey]
    have hhead : (t ++ ' ' :: c).head?.all (fun ch => !isStripChar ch) = true := by
      rw [htx]
      simp [hth]
    have hlast : (t ++ ' ' :: c).getLast?.all (fun ch => !isStripChar ch) = true := by
      rw [List.getLast?_append]
      have hlc : (' ' :: c).getLast? = some cl := by
        rw [List.getLast?_eq_head?_reverse]
        simp [hcr]
      rw [hlc]
      simp [hcl]
    have hne : (t ++ ' ' :: c) ≠ [] := by
      rw [htx]
      simp
    have hstrip : pyStrip (serializeSshKey ⟨t, c, []⟩) = t ++ ' ' :: c := by
      rw [hser]
      exact pyStrip_trailing_space _ hhead hlast hne
    have hsplit : pySplitCharLimit ' ' (t ++ ' ' :: c) 2 = [t, c] := by
      rw [pySplitCharLimit_chunk ' ' t c 1 hts,
          pySplitCharLimit_no_char ' ' c hcs 1]
    unfold parse_ssh_public_key
    rw [hstrip, hsplit]
  · have hnrev : n.reverse ≠ [] := by
      simpa [List.reverse_eq_nil_iff] using hn
    obtain ⟨nl, nrest, hnr⟩ := List.exists_cons_of_ne_nil hnrev
    have hnlast : n.getLast? = some nl := by
      rw [List.getLast?_eq_head?_reverse, hnr]
      rfl
    have hnl : isStripChar nl = false := by
      rw [hnlast] at hn3
      simpa using hn3
    have hsA : serializeSshKey ⟨t, c, n⟩ = t ++ ' ' :: (c ++ ' ' :: n) := by
      simp [serializeSshKey]
    have hhead : (t ++ ' ' :: (c ++ ' ' :: n)).head?.all
        (fun ch => !isStripChar ch) = true := by
      rw [htx]
      simp [hth]
    have hA2 : t ++ ' ' :: (c ++ ' ' :: n) = ((t ++ ' ' :: c) ++ [' ']) ++ n := by
      simp
    have hlast : (t ++ ' ' :: (c ++ ' ' :: n)).getLast?.all
        (fun ch => !isStripChar ch) = true := by
      rw [hA2, List.getLast?_append, hnlast]
      simp [hnl]
    have hstrip : pyStrip (t ++ ' ' :: (c ++ ' ' :: n)) =
        t ++ ' ' :: (c ++ ' ' :: n) := pyStrip_eq_self _ hhead hlast
    have hsplit : pySplitCharLimit ' ' (t ++ ' ' :: (c ++ ' ' :: n)) 2 =
        [t, c, n] := by
      rw [pySplitCharLimit_chunk ' ' t (c ++ ' ' :: n) 1 hts,
          pySplitCharLimit_chunk ' ' c n 0 hcs]
      cases n <;> rfl
    unfold parse_ssh_public_key
    rw [hsA, hstrip, hsplit]

/-- Converting the serialized line of a well-formed key (with no explicit
name) yields the key pair carrying exactly the original triple, with the
re-serialized line as its public key. -/
theorem ssh_to_kp_serialize (k : SshKey) (h : wellFormedKey k) :
    ssh_public_key_to_key_pair (serializeSshKey k) none =
      Except.ok ⟨k.name, serializeSshKey k, k.keyType, k.content⟩ := by
  unfold ssh_public_key_to_key_pair
  rw [parse_serialize k h, exceptBindOk]
  rfl

/-- Mapping the key-pair conversion over serialized well-formed keys
succeeds and returns the expected key pairs in order. -/
theorem mapM_serialize (ks : List SshKey) (h : ∀ k ∈ ks, wellFormedKey k) :
    (ks.map serializeSshKey).mapM (fun s => ssh_public_key_to_key_pair s none) =
      Except.ok (ks.map (fun k =>
        KeyPair.mk k.name (serializeSshKey k) k.keyType k.content)) := by
  induction ks with
  | nil => rfl
  | cons k rest ih =>
    simp only [List.map_cons, List.mapM_cons]
    rw [ssh_to_kp_serialize k (h k (List.mem_cons_self k rest)),
      exceptBindOk, ih (fun q hq => h q (List.mem_cons_of_mem k hq)),
      exceptBindOk]
    rfl

/-- The key-pair blob round trip: serializing well-formed keys to the
newline blob, re-splitting it and re-parsing yields the expected key pairs
in order. -/
theorem list_key_pairs_blob_roundtrip (ks : List SshKey)
    (h : ∀ k ∈ ks, wellFormedKey k) :
    list_key_pairs (blobToKeys (pyJoinNl (ks.map serializeSshKey))) =
      Except.ok (ks.map (fun k =>
        KeyPair.mk k.name (serializeSshKey k) k.keyType k.content)) := by
  have hlines : ∀ l ∈ ks.map serializeSshKey, '\n' ∉ l := by
    intro l hl
    obtain ⟨k, hk, rfl⟩ := List.mem_map.mp hl
    exact serialize_no_newline k (h k hk)
  cases ks with
  | nil => rfl
  | cons k0 rest =>
    rw [blobToKeys_join _ hlines (by simp)]
    have hfil : ((k0 :: rest).map serializeSshKey).filter (fun s => s ≠ []) =
        (k0 :: rest).map serializeSshKey := by
      rw [List.filter_eq_self]
      intro a ha
      obtain ⟨k, _, rfl⟩ := List.mem_map.mp ha
      simpa using serialize_ne_nil k
    unfold list_key_pairs
    rw [hfil]
    exact mapM_serialize (k0 :: rest) h

/-- Claim C7: for every `N ≥ 0` and every list of `N` well-formed key pairs
(including entries with an absent comment), serializing them into the
newline-joined blob and re-parsing yields exactly `N` entries whose
`(type, content, name)` triples equal the originals. -/
theorem claim_C7_key_blob_round_trip (ks : List SshKey)
    (h : ∀ k ∈ ks, wellFormedKey k) :
    ∃ kps : List KeyPair,
      list_key_pairs (blobToKeys (pyJoinNl (ks.map serializeSshKey))) =
        Except.ok kps ∧
      kps.length = ks.length ∧
      kps.map (fun kp => (kp.public_key_type, kp.public_key_content, kp.name)) =
        ks.map (fun k => (k.keyType, k.content, k.name)) := by
  refine ⟨_, list_key_pairs_blob_roundtrip ks h, ?_, ?_⟩ <;> simp

/-- Claim C7 witness: two keys, the second with an absent comment. -/
theorem claim_C7_witness :
    (∀ k ∈ [(⟨"ssh-rsa".data, "AAAB3".data, "key one".data⟩ : SshKey),
            ⟨"ssh-dss".data, "CCC".data, []⟩], wellFormedKey k) ∧
    (∃ kps : List KeyPair,
      list_key_pairs (blobToKeys (pyJoinNl
        ([(⟨"ssh-rsa".data, "AAAB3".data, "key one".data⟩ : SshKey),
          ⟨"ssh-dss".data, "CCC".data, []⟩].map serializeSshKey))) =
        Except.ok kps ∧
      kps.length = [(⟨"ssh-rsa".data, "AAAB3".data, "key one".data⟩ : SshKey),
          ⟨"ssh-dss".data, "CCC".data, []⟩].length ∧
      kps.map (fun kp => (kp.public_key_type, kp.public_key_content, kp.name)) =
        [(⟨"ssh-rsa".data, "AAAB3".data, "key one".data⟩ : SshKey),
          ⟨"ssh-dss".data, "CCC".data, []⟩].map
          (fun k => (k.keyType, k.content, k.name))) :=
  ⟨by decide,
   claim_C7_key_blob_round_trip
     [⟨"ssh-rsa".data, "AAAB3".data, "key one".data⟩,
      ⟨"ssh-dss".data, "CCC".data, []⟩] (by decide)⟩

end SlipStream
